import Mathlib

/-!
Shallow embedding of the recipe budget-allocation core of the repository
(`src/lib/ai.ts`): the pure Budget Allocator `simpleOptimize` and the
Advisory Allocator wrapper `generateRecipeBuild`.

JavaScript numbers are modelled as exact rationals (`ℚ`); all equalities the
spec asserts are exact over the same accumulation order, so they hold in this
model exactly as stated.  JavaScript truthiness on numbers (`0` and absence
are falsy, any other number truthy) is modelled explicitly where the source
relies on it.
-/

namespace ProfitRestaurant

/-- Input record of the allocator (interface `IngredientInput` in
`src/lib/ai.ts`): `weight` and `lockedQty` are optional fields. -/
structure IngredientInput where
  name : String
  averageUnitCost : ℚ
  weight : Option ℚ
  lockedQty : Option ℚ
deriving Repr, DecidableEq

/-- One output record `{name, quantity, cost}` pushed onto `results`. -/
structure RecipeLine where
  name : String
  quantity : ℚ
  cost : ℚ
deriving Repr, DecidableEq

/-- Result record (interface `OptimizedRecipe` in `src/lib/ai.ts`). -/
structure OptimizedRecipe where
  ingredients : List RecipeLine
  totalCost : ℚ
  costPercentage : ℚ
  overBudget : Bool
deriving Repr, DecidableEq

/-- The nominal budget `salesPrice * (targetPct / 100)`. -/
def budgetOf (salesPrice targetPct : ℚ) : ℚ :=
  salesPrice * (targetPct / 100)

/-- The source's locked test is JavaScript truthiness,
`if (ing.lockedQty && ing.averageUnitCost)`: an absent `lockedQty`, a
`lockedQty` of `0`, and an `averageUnitCost` of `0` are all falsy. -/
def isLocked (ing : IngredientInput) : Bool :=
  decide (ing.lockedQty.getD 0 ≠ 0 ∧ ing.averageUnitCost ≠ 0)

/-- The locked ingredients, in input order (the first `forEach` pushes their
result lines as it meets them). -/
def lockedPart (items : List IngredientInput) : List IngredientInput :=
  items.filter isLocked

/-- The unlocked ingredients, in input order (collected into `unlocked` by
the first `forEach`). -/
def unlockedPart (items : List IngredientInput) : List IngredientInput :=
  items.filter (fun i => !(isLocked i))

/-- Result line of a locked ingredient:
`{name, quantity: lockedQty, cost: lockedQty * averageUnitCost}`. -/
def lockedLine (ing : IngredientInput) : RecipeLine :=
  { name := ing.name
    quantity := ing.lockedQty.getD 0
    cost := ing.lockedQty.getD 0 * ing.averageUnitCost }

/-- Total cost of the locked lines, subtracted from `remainingBudget` by the
first `forEach`. -/
def lockedCost (items : List IngredientInput) : ℚ :=
  ((lockedPart items).map (fun i => (lockedLine i).cost)).sum

/-- `remainingBudget` after the first loop: the nominal budget minus every
locked cost. -/
def remainingBudgetOf (salesPrice targetPct : ℚ) (items : List IngredientInput) : ℚ :=
  budgetOf salesPrice targetPct - lockedCost items

/-- `totalWeight = unlocked.reduce((sum, i) => sum + (i.weight ?? 0), 0)`:
an absent weight counts as `0` in the sum. -/
def totalWeightOf (items : List IngredientInput) : ℚ :=
  ((unlockedPart items).map (fun i => i.weight.getD 0)).sum

/-- Share of one unlocked ingredient:
`totalWeight > 0 ? (ing.weight ?? 0) / totalWeight : 1 / unlocked.length`.
(The even-split branch is only ever evaluated on members of a non-empty
`unlocked` list.) -/
def shareOf (items : List IngredientInput) (ing : IngredientInput) : ℚ :=
  if 0 < totalWeightOf items then ing.weight.getD 0 / totalWeightOf items
  else 1 / ((unlockedPart items).length : ℚ)

/-- Result line of an unlocked ingredient: `allocation = remainingBudget *
weight`; `qty = ing.averageUnitCost ? allocation / ing.averageUnitCost : 0`
(truthiness guard on a zero unit cost). -/
def unlockedLine (salesPrice targetPct : ℚ) (items : List IngredientInput)
    (ing : IngredientInput) : RecipeLine :=
  let allocation := remainingBudgetOf salesPrice targetPct items * shareOf items ing
  { name := ing.name
    quantity := if ing.averageUnitCost ≠ 0 then allocation / ing.averageUnitCost else 0
    cost := allocation }

/-- The Budget Allocator `simpleOptimize(salesPrice, targetPct, items)` of
`src/lib/ai.ts`: locked lines are pushed first (first `forEach`), then the
unlocked lines (second `forEach`); `totalCost` accumulates the locked costs
and then every allocation; `costPercentage = (totalCost / salesPrice) * 100`
and `overBudget = totalCost > budget`. -/
def simpleOptimize (salesPrice targetPct : ℚ)
    (items : List IngredientInput) : OptimizedRecipe :=
  let results := (lockedPart items).map lockedLine
    ++ (unlockedPart items).map (unlockedLine salesPrice targetPct items)
  let totalCost := lockedCost items
    + (((unlockedPart items).map (unlockedLine salesPrice targetPct items)).map
        (fun l => l.cost)).sum
  { ingredients := results
    totalCost := totalCost
    costPercentage := totalCost / salesPrice * 100
    overBudget := decide (budgetOf salesPrice targetPct < totalCost) }

/-- Concrete ingredients of the spec's Scenario B. -/
def chickenLocked : IngredientInput := ⟨"Chicken", 1, some (1/2), some 2⟩

def cheeseB : IngredientInput := ⟨"Cheese", 1, some (3/10), none⟩

def lettuceB : IngredientInput := ⟨"Lettuce", 1, some (1/5), none⟩

def scenarioB : List IngredientInput := [chickenLocked, cheeseB, lettuceB]

/-- Membership of a locked ingredient's line in the returned list. -/
theorem locked_line_mem (s p : ℚ) (items : List IngredientInput) (ing : IngredientInput)
    (hmem : ing ∈ items) (hl : isLocked ing = true) :
    lockedLine ing ∈ (simpleOptimize s p items).ingredients := by
  have h : ing ∈ lockedPart items := List.mem_filter.2 ⟨hmem, hl⟩
  simp only [simpleOptimize, List.mem_append]
  exact Or.inl (List.mem_map_of_mem _ h)

/-- Membership of an unlocked ingredient's line in the returned list. -/
theorem unlocked_line_mem (s p : ℚ) (items : List IngredientInput) (ing : IngredientInput)
    (hmem : ing ∈ items) (hl : isLocked ing = false) :
    unlockedLine s p items ing ∈ (simpleOptimize s p items).ingredients := by
  have h : ing ∈ unlockedPart items := List.mem_filter.2 ⟨hmem, by simp [hl]⟩
  simp only [simpleOptimize, List.mem_append]
  exact Or.inr (List.mem_map_of_mem _ h)

/-- The names of the returned lines are a permutation of the input names (the
output is the locked sub-list followed by the unlocked sub-list, each line
keeping its ingredient's name). -/
theorem simpleOptimize_names_perm (s p : ℚ) (items : List IngredientInput) :
    ((simpleOptimize s p items).ingredients.map (fun l => l.name)).Perm
      (items.map (fun i => i.name)) := by
  have h := (List.filter_append_perm isLocked items).map (fun i => i.name)
  simpa [simpleOptimize, lockedPart, unlockedPart, lockedLine, unlockedLine,
    List.map_append, List.map_map, Function.comp] using h

/-- Claim C4: on Scenario B (`salesPrice = 10`, `targetFoodCostPct = 30`,
Chicken locked at quantity 2 and unit cost 1, Cheese weight 0.3, Lettuce
weight 0.2, both unit cost 1) the Budget Allocator returns Chicken cost 2 at
quantity 2, Cheese cost 0.6, Lettuce cost 0.4, and `totalCost = 3`: the
locked cost is subtracted from the nominal budget 3 and the remaining 1 is
split 0.3 : 0.2 between the unlocked ingredients. -/
theorem scenarioB_allocation :
    simpleOptimize 10 30 scenarioB =
      { ingredients := [⟨"Chicken", 2, 2⟩, ⟨"Cheese", 3/5, 3/5⟩, ⟨"Lettuce", 2/5, 2/5⟩]
        totalCost := 3
        costPercentage := 30
        overBudget := false } := by
  simp [simpleOptimize, scenarioB, chickenLocked, cheeseB, lettuceB, lockedPart,
    unlockedPart, isLocked, lockedLine, unlockedLine, lockedCost, remainingBudgetOf,
    budgetOf, totalWeightOf, shareOf, List.filter]
  norm_num

/-- Claim C5: for every valid input, the sum of the `cost` fields over the
returned lines equals the returned `totalCost` exactly (both accumulate the
same per-ingredient values). -/
theorem total_cost_is_sum (s p : ℚ) (items : List IngredientInput)
    (hs : 0 < s) (hp1 : 0 < p) (hp2 : p ≤ 100) (hne : items ≠ []) :
    ((simpleOptimize s p items).ingredients.map (fun l => l.cost)).sum
      = (simpleOptimize s p items).totalCost := by
  simp only [simpleOptimize, lockedCost, List.map_append, List.sum_append, List.map_map]
  rfl

/-- Witness for C5 at Scenario B. -/
theorem total_cost_is_sum_witness :
    ((simpleOptimize 10 30 scenarioB).ingredients.map (fun l => l.cost)).sum
      = (simpleOptimize 10 30 scenarioB).totalCost :=
  total_cost_is_sum 10 30 scenarioB (by decide) (by decide) (by decide)
    (by simp [scenarioB])

/-- Claim C6: for every valid input, `overBudget` is true iff `totalCost`
strictly exceeds the nominal budget `salesPrice * targetFoodCostPct / 100`,
and `costPercentage` equals `totalCost / salesPrice * 100` exactly. -/
theorem over_budget_and_percentage (s p : ℚ) (items : List IngredientInput)
    (hs : 0 < s) (hp1 : 0 < p) (hp2 : p ≤ 100) (hne : items ≠ []) :
    ((simpleOptimize s p items).overBudget = true ↔
      s * p / 100 < (simpleOptimize s p items).totalCost) ∧
    (simpleOptimize s p items).costPercentage
      = (simpleOptimize s p items).totalCost / s * 100 := by
  constructor
  · simp [simpleOptimize, budgetOf, mul_div_assoc]
  · simp [simpleOptimize]

/-- Witness for C6 at Scenario B. -/
theorem over_budget_and_percentage_witness :
    ((simpleOptimize 10 30 scenarioB).overBudget = true ↔
      (10 : ℚ) * 30 / 100 < (simpleOptimize 10 30 scenarioB).totalCost) ∧
    (simpleOptimize 10 30 scenarioB).costPercentage
      = (simpleOptimize 10 30 scenarioB).totalCost / 10 * 100 :=
  over_budget_and_percentage 10 30 scenarioB (by decide) (by decide) (by decide)
    (by simp [scenarioB])

/-- Claim C8: when the input names are unique, the returned lines carry
exactly one entry per input name — every name's multiplicity is preserved and
each input name occurs exactly once (order is not claimed). -/
theorem one_line_per_name (s p : ℚ) (items : List IngredientInput)
    (hs : 0 < s) (hp1 : 0 < p) (hp2 : p ≤ 100) (hne : items ≠ [])
    (hnodup : (items.map (fun i => i.name)).Nodup) :
    (∀ n : String,
      List.count n ((simpleOptimize s p items).ingredients.map (fun l => l.name))
        = List.count n (items.map (fun i => i.name))) ∧
    ∀ ing ∈ items,
      List.count ing.name
        ((simpleOptimize s p items).ingredients.map (fun l => l.name)) = 1 := by
  refine ⟨fun n => (simpleOptimize_names_perm s p items).count_eq n, fun ing h => ?_⟩
  rw [(simpleOptimize_names_perm s p items).count_eq]
  exact List.count_eq_one_of_mem hnodup (List.mem_map_of_mem _ h)

/-- Witness for C8 at Scenario B. -/
theorem one_line_per_name_witness :
    (∀ n : String,
      List.count n ((simpleOptimize 10 30 scenarioB).ingredients.map (fun l => l.name))
        = List.count n (scenarioB.map (fun i => i.name))) ∧
    ∀ ing ∈ scenarioB,
      List.count ing.name
        ((simpleOptimize 10 30 scenarioB).ingredients.map (fun l => l.name)) = 1 :=
  one_line_per_name 10 30 scenarioB (by decide) (by decide) (by decide)
    (by simp [scenarioB])
    (by simp [scenarioB, chickenLocked, cheeseB, lettuceB])

/-- Claim C9: the Budget Allocator is deterministic — two calls on equal
inputs return equal results.  (Freedom from input mutation is inherent to the
embedding: the source builds fresh `results`/`unlocked` arrays and only reads
`items`.) -/
theorem budget_allocator_deterministic (s₁ s₂ p₁ p₂ : ℚ)
    (i₁ i₂ : List IngredientInput) (hs : s₁ = s₂) (hp : p₁ = p₂) (hi : i₁ = i₂) :
    simpleOptimize s₁ p₁ i₁ = simpleOptimize s₂ p₂ i₂ := by
  rw [hs, hp, hi]

/-- Witness for C9 at Scenario B. -/
theorem budget_allocator_deterministic_witness :
    simpleOptimize 10 30 scenarioB = simpleOptimize 10 30 scenarioB :=
  budget_allocator_deterministic 10 10 30 30 scenarioB scenarioB rfl rfl rfl

/-- Claim C2 counterexample: an ingredient with `lockedQty = 0` present is
not honoured as locked.  With `salesPrice = 10`, `targetFoodCostPct = 30` and
the single ingredient `{name: "A", averageUnitCost: 1, weight: 1,
lockedQty: 0}`, the claim demands a returned quantity of exactly `0` and cost
`0 * 1 = 0`; instead the truthiness test `ing.lockedQty && ing.averageUnitCost`
routes it to the weighted allocation, which returns quantity 3 and cost 3. -/
theorem locked_zero_qty_counterexample :
    (simpleOptimize 10 30 [⟨"A", 1, some 1, some 0⟩]).ingredients
      = [⟨"A", 3, 3⟩] ∧ (3 : ℚ) ≠ 0 := by
  constructor
  · simp [simpleOptimize, lockedPart, unlockedPart, isLocked, lockedLine, unlockedLine,
      lockedCost, remainingBudgetOf, budgetOf, totalWeightOf, shareOf, List.filter]
    norm_num
  · decide

/-- Claim C2 as amended: for every valid input and every ingredient whose
`lockedQty` is present with a non-zero value `q` and whose `averageUnitCost`
is non-zero, the result contains the line `{name, quantity: q, cost: q *
averageUnitCost}`, and that ingredient is not part of the unlocked partition
used for the proportional weight allocation. -/
theorem locked_ingredient_invariant (s p : ℚ) (items : List IngredientInput)
    (ing : IngredientInput) (q : ℚ)
    (hs : 0 < s) (hp1 : 0 < p) (hp2 : p ≤ 100) (hne : items ≠ [])
    (hmem : ing ∈ items) (hq : ing.lockedQty = some q) (hq0 : q ≠ 0)
    (hc : ing.averageUnitCost ≠ 0) :
    (⟨ing.name, q, q * ing.averageUnitCost⟩ : RecipeLine)
        ∈ (simpleOptimize s p items).ingredients ∧
    ing ∉ unlockedPart items := by
  have hl : isLocked ing = true := by
    simp [isLocked, hq, hq0, hc]
  have hline : lockedLine ing = ⟨ing.name, q, q * ing.averageUnitCost⟩ := by
    simp [lockedLine, hq]
  refine ⟨hline ▸ locked_line_mem s p items ing hmem hl, fun hmem2 => ?_⟩
  have := (List.mem_filter.1 hmem2).2
  simp [hl] at this

/-- Witness for the amended C2 at Scenario B (Chicken is locked at 2). -/
theorem locked_ingredient_invariant_witness :
    (⟨"Chicken", 2, 2 * 1⟩ : RecipeLine) ∈ (simpleOptimize 10 30 scenarioB).ingredients ∧
    chickenLocked ∉ unlockedPart scenarioB :=
  locked_ingredient_invariant 10 30 scenarioB chickenLocked 2
    (by decide) (by decide) (by decide) (by simp [scenarioB])
    (List.mem_cons_self chickenLocked [cheeseB, lettuceB]) rfl (by decide) (by decide)

/-- Claim C3 counterexample: with one unlocked ingredient of weight 0.5 and
one unlocked ingredient whose weight is absent, the weight-absent ingredient
receives cost 0 and quantity 0 — not an even share — and replacing the absent
weight by an explicit `0` produces the identical result, so absence is not
treated differently from `weight = 0`. -/
theorem absent_weight_counterexample :
    (simpleOptimize 10 30 [⟨"A", 1, some (1/2), none⟩, ⟨"B", 1, none, none⟩]).ingredients
      = [⟨"A", 3, 3⟩, ⟨"B", 0, 0⟩] ∧
    simpleOptimize 10 30 [⟨"A", 1, some (1/2), none⟩, ⟨"B", 1, none, none⟩]
      = simpleOptimize 10 30 [⟨"A", 1, some (1/2), none⟩, ⟨"B", 1, some 0, none⟩] := by
  constructor
  · simp [simpleOptimize, lockedPart, unlockedPart, isLocked, lockedLine, unlockedLine,
      lockedCost, remainingBudgetOf, budgetOf, totalWeightOf, shareOf, List.filter]
    norm_num
  · simp [simpleOptimize, lockedPart, unlockedPart, isLocked, lockedLine, unlockedLine,
      lockedCost, remainingBudgetOf, budgetOf, totalWeightOf, shareOf, List.filter]

/-- Claim C3 as amended: whenever the total weight over the unlocked
ingredients is positive, an unlocked ingredient whose weight is absent is
treated exactly as if its weight were `0`: its line is `{name, quantity: 0,
cost: 0}` and that line appears in the returned list.  The even split applies
only when the total unlocked weight is not positive, and then to every
unlocked ingredient alike. -/
theorem absent_weight_zero_share (s p : ℚ) (items : List IngredientInput)
    (ing : IngredientInput)
    (hs : 0 < s) (hp1 : 0 < p) (hp2 : p ≤ 100) (hne : items ≠ [])
    (hw : 0 < totalWeightOf items) (hmem : ing ∈ unlockedPart items)
    (habs : ing.weight = none) :
    unlockedLine s p items ing = ⟨ing.name, 0, 0⟩ ∧
    (⟨ing.name, 0, 0⟩ : RecipeLine) ∈ (simpleOptimize s p items).ingredients := by
  have hshare : shareOf items ing = 0 := by
    simp [shareOf, hw, habs]
  have hline : unlockedLine s p items ing = ⟨ing.name, 0, 0⟩ := by
    simp [unlockedLine, hshare]
  refine ⟨hline, ?_⟩
  have hmem0 : ing ∈ items := (List.mem_filter.1 hmem).1
  have hl : isLocked ing = false := by
    have := (List.mem_filter.1 hmem).2
    simpa using this
  exact hline ▸ unlocked_line_mem s p items ing hmem0 hl

/-- Witness for the amended C3 on the counterexample input. -/
theorem absent_weight_zero_share_witness :
    unlockedLine 10 30 [⟨"A", 1, some (1/2), none⟩, ⟨"B", 1, none, none⟩]
        ⟨"B", 1, none, none⟩ = ⟨"B", 0, 0⟩ ∧
    (⟨"B", 0, 0⟩ : RecipeLine)
      ∈ (simpleOptimize 10 30
          [⟨"A", 1, some (1/2), none⟩, ⟨"B", 1, none, none⟩]).ingredients :=
  absent_weight_zero_share 10 30 [⟨"A", 1, some (1/2), none⟩, ⟨"B", 1, none, none⟩]
    ⟨"B", 1, none, none⟩ (by decide) (by decide) (by decide) (by simp)
    (by simp [totalWeightOf, unlockedPart, isLocked, List.filter])
    (by simp [unlockedPart, isLocked, List.filter]) rfl

/-- Claim C7: for every valid input and unlocked ingredient with
`averageUnitCost = 0`, the truthiness guard avoids the division: the
ingredient is unlocked (it can never satisfy the locked test), its line has
`quantity = 0` while its `cost` is still its proportional share of the
remaining budget, that line is in the returned list, and the cost is non-zero
whenever its share and the remaining budget are non-zero. -/
theorem zero_unit_cost_guard (s p : ℚ) (items : List IngredientInput)
    (ing : IngredientInput)
    (hs : 0 < s) (hp1 : 0 < p) (hp2 : p ≤ 100) (hne : items ≠ [])
    (hmem : ing ∈ items) (hc : ing.averageUnitCost = 0) :
    ing ∈ unlockedPart items ∧
    unlockedLine s p items ing
      = ⟨ing.name, 0, remainingBudgetOf s p items * shareOf items ing⟩ ∧
    unlockedLine s p items ing ∈ (simpleOptimize s p items).ingredients ∧
    (shareOf items ing ≠ 0 → remainingBudgetOf s p items ≠ 0 →
      (unlockedLine s p items ing).cost ≠ 0) := by
  have hl : isLocked ing = false := by
    simp [isLocked, hc]
  refine ⟨List.mem_filter.2 ⟨hmem, by simp [hl]⟩, ?_, unlocked_line_mem s p items ing hmem hl, ?_⟩
  · simp [unlockedLine, hc]
  · intro hsh hrb
    simp [unlockedLine]
    exact ⟨hrb, hsh⟩

/-- Witness for C7: a zero-unit-cost unlocked ingredient next to a weighted
one. -/
theorem zero_unit_cost_guard_witness :
    (⟨"Z", 0, some (1/2), none⟩ : IngredientInput)
        ∈ unlockedPart [⟨"Z", 0, some (1/2), none⟩, ⟨"A", 1, some (1/2), none⟩] ∧
    unlockedLine 10 30 [⟨"Z", 0, some (1/2), none⟩, ⟨"A", 1, some (1/2), none⟩]
        ⟨"Z", 0, some (1/2), none⟩
      = ⟨"Z", 0,
          remainingBudgetOf 10 30 [⟨"Z", 0, some (1/2), none⟩, ⟨"A", 1, some (1/2), none⟩]
            * shareOf [⟨"Z", 0, some (1/2), none⟩, ⟨"A", 1, some (1/2), none⟩]
                ⟨"Z", 0, some (1/2), none⟩⟩ ∧
    unlockedLine 10 30 [⟨"Z", 0, some (1/2), none⟩, ⟨"A", 1, some (1/2), none⟩]
        ⟨"Z", 0, some (1/2), none⟩
      ∈ (simpleOptimize 10 30
          [⟨"Z", 0, some (1/2), none⟩, ⟨"A", 1, some (1/2), none⟩]).ingredients ∧
    (shareOf [⟨"Z", 0, some (1/2), none⟩, ⟨"A", 1, some (1/2), none⟩]
        ⟨"Z", 0, some (1/2), none⟩ ≠ 0 →
      remainingBudgetOf 10 30 [⟨"Z", 0, some (1/2), none⟩, ⟨"A", 1, some (1/2), none⟩] ≠ 0 →
      (unlockedLine 10 30 [⟨"Z", 0, some (1/2), none⟩, ⟨"A", 1, some (1/2), none⟩]
          ⟨"Z", 0, some (1/2), none⟩).cost ≠ 0) :=
  zero_unit_cost_guard 10 30 [⟨"Z", 0, some (1/2), none⟩, ⟨"A", 1, some (1/2), none⟩]
    ⟨"Z", 0, some (1/2), none⟩ (by decide) (by decide) (by decide) (by simp)
    (List.mem_cons_self _ _) rfl

/-- Claim C10: the truthiness test places an ingredient in the locked
partition only when both `lockedQty` and `averageUnitCost` are present and
non-zero; an ingredient with `lockedQty = some q` but `q = 0` or
`averageUnitCost = 0` is unlocked, its emitted line is the proportional one
(cost `remainingBudget * share`, quantity derived from it, not fixed at
`q`), and that line is in the returned list. -/
theorem truthiness_locked_partition (s p : ℚ) (items : List IngredientInput)
    (ing : IngredientInput) (q : ℚ)
    (hmem : ing ∈ items) (hq : ing.lockedQty = some q)
    (hdeg : q = 0 ∨ ing.averageUnitCost = 0) :
    isLocked ing = false ∧
    ing ∈ unlockedPart items ∧
    unlockedLine s p items ing ∈ (simpleOptimize s p items).ingredients ∧
    (unlockedLine s p items ing).cost
      = remainingBudgetOf s p items * shareOf items ing := by
  have hl : isLocked ing = false := by
    rcases hdeg with h0 | h0 <;> simp [isLocked, hq, h0]
  exact ⟨hl, List.mem_filter.2 ⟨hmem, by simp [hl]⟩,
    unlocked_line_mem s p items ing hmem hl, rfl⟩

/-- Witness for C10: `lockedQty = 0` with unit cost 1. -/
theorem truthiness_locked_partition_witness :
    isLocked ⟨"A", 1, some 1, some 0⟩ = false ∧
    (⟨"A", 1, some 1, some 0⟩ : IngredientInput)
        ∈ unlockedPart [⟨"A", 1, some 1, some 0⟩] ∧
    unlockedLine 10 30 [⟨"A", 1, some 1, some 0⟩] ⟨"A", 1, some 1, some 0⟩
        ∈ (simpleOptimize 10 30 [⟨"A", 1, some 1, some 0⟩]).ingredients ∧
    (unlockedLine 10 30 [⟨"A", 1, some 1, some 0⟩] ⟨"A", 1, some 1, some 0⟩).cost
      = remainingBudgetOf 10 30 [⟨"A", 1, some 1, some 0⟩]
          * shareOf [⟨"A", 1, some 1, some 0⟩] ⟨"A", 1, some 1, some 0⟩ :=
  truthiness_locked_partition 10 30 [⟨"A", 1, some 1, some 0⟩] ⟨"A", 1, some 1, some 0⟩ 0
    (List.mem_cons_self _ _) rfl (Or.inl rfl)

/-!
Advisory Allocator (`generateRecipeBuild` in `src/lib/ai.ts`).

The external service is modelled by the outcome the wrapper observes: the
client may be unconfigured (`getOpenAIClient()` returns `null`, and it never
throws — every failure inside it is caught and turned into `null`), the
request/response path inside the `try` may throw, `JSON.parse` may throw on
malformed text, or parsing succeeds with some JSON value.  On a successful
parse the source performs only compile-time casts
(`json.ingredients as {...}[]`, `json.totalCost as number`) — no runtime
validation — so the parsed fields flow into the returned object verbatim.
-/

/-- A JavaScript value as seen by the success path: everything `JSON.parse`
can produce, plus `undefined` (the value of reading an absent property). -/
inductive JVal where
  | undefined : JVal
  | null : JVal
  | bool : Bool → JVal
  | num : ℚ → JVal
  | str : String → JVal
  | arr : List JVal → JVal
  | obj : List (String × JVal) → JVal

/-- JS `ToNumber` on the values the success path feeds into arithmetic;
`none` stands for a non-finite result (NaN).  The coercions of strings,
arrays and objects (which go through `ToPrimitive`/string parsing in JS) are
abstracted to NaN; no theorem below depends on those branches. -/
def toNumber : JVal → Option ℚ
  | .undefined => none
  | .null => some 0
  | .bool b => some (if b then 1 else 0)
  | .num x => some x
  | .str _ => none
  | .arr _ => none
  | .obj _ => none

/-- `(totalCost / salesPrice) * 100` with JS semantics: NaN propagates, and a
zero divisor yields a non-finite value, also modelled as `none`. -/
def jsCostPercentage (v : JVal) (salesPrice : ℚ) : Option ℚ :=
  (toNumber v).bind (fun x => if salesPrice = 0 then none else some (x / salesPrice * 100))

/-- `totalCost > budget` with JS semantics: a NaN operand makes `>` false. -/
def jsGT (v : JVal) (b : ℚ) : Bool :=
  match toNumber v with
  | some x => decide (b < x)
  | none => false

/-- Property read `v.k`: throws a `TypeError` when the receiver is
`null`/`undefined`, otherwise yields the field or `undefined`. -/
def getProp (v : JVal) (k : String) : Except Unit JVal :=
  match v with
  | .null => .error ()
  | .undefined => .error ()
  | .obj fs =>
    .ok (match fs.lookup k with
      | some x => x
      | none => .undefined)
  | _ => .ok .undefined

/-- What the caller of `generateRecipeBuild` receives: the `ingredients` and
`totalCost` fields hold whatever JS value flowed into them (on the success
path they are the unvalidated parsed fields). -/
structure JsRecipe where
  ingredients : JVal
  totalCost : JVal
  costPercentage : Option ℚ
  overBudget : Bool

/-- One allocator line as a JSON value. -/
def embedLine (l : RecipeLine) : JVal :=
  .obj [("name", .str l.name), ("quantity", .num l.quantity), ("cost", .num l.cost)]

/-- A Budget Allocator result as the caller-visible JS value. -/
def embedRecipe (r : OptimizedRecipe) : JsRecipe :=
  { ingredients := .arr (r.ingredients.map embedLine)
    totalCost := .num r.totalCost
    costPercentage := some r.costPercentage
    overBudget := r.overBudget }

/-- The expected shape of one line, `{name: string, quantity: number,
cost: number}`, in the field order the allocator itself emits. -/
def validLine : JVal → Bool
  | .obj [("name", .str _), ("quantity", .num _), ("cost", .num _)] => true
  | _ => false

/-- Structural validity of a caller-visible result against the
`OptimizedRecipe` contract: `ingredients` is an array of well-shaped lines
and `totalCost` is a number. -/
def structurallyValid (r : JsRecipe) : Bool :=
  (match r.ingredients with
   | .arr xs => xs.all validLine
   | _ => false)
  && (match r.totalCost with
      | .num _ => true
      | _ => false)

/-- The outcome of the external-service path, as observed by
`generateRecipeBuild`. -/
inductive ServiceOutcome where
  | unconfigured : ServiceOutcome
  | callThrows : ServiceOutcome
  | parseThrows : ServiceOutcome
  | parsed : JVal → ServiceOutcome

/-- The Advisory Allocator `generateRecipeBuild` of `src/lib/ai.ts`: an
unconfigured client, a throwing call, a `JSON.parse` failure, or a throwing
property read on the parsed value all fall back to `simpleOptimize`; a
successful parse returns `json.ingredients` and `json.totalCost` verbatim,
with `costPercentage` and `overBudget` recomputed from the local
`salesPrice` and budget. -/
def generateRecipeBuild (salesPrice targetPct : ℚ) (items : List IngredientInput)
    (outcome : ServiceOutcome) : JsRecipe :=
  match outcome with
  | .unconfigured => embedRecipe (simpleOptimize salesPrice targetPct items)
  | .callThrows => embedRecipe (simpleOptimize salesPrice targetPct items)
  | .parseThrows => embedRecipe (simpleOptimize salesPrice targetPct items)
  | .parsed v =>
    match getProp v "ingredients", getProp v "totalCost" with
    | .ok results, .ok totalCost =>
        { ingredients := results
          totalCost := totalCost
          costPercentage := jsCostPercentage totalCost salesPrice
          overBudget := jsGT totalCost (budgetOf salesPrice targetPct) }
    | _, _ => embedRecipe (simpleOptimize salesPrice targetPct items)

/-- The outcomes on which the source actually throws inside the `try` (or
never reaches it): these are the ones the catch redirects to the fallback. -/
def fallsBack : ServiceOutcome → Bool
  | .unconfigured => true
  | .callThrows => true
  | .parseThrows => true
  | .parsed .null => true
  | .parsed .undefined => true
  | .parsed _ => false

/-- An embedded Budget Allocator result is always structurally valid. -/
theorem structurallyValid_embedRecipe (r : OptimizedRecipe) :
    structurallyValid (embedRecipe r) = true := by
  simp only [structurallyValid, embedRecipe, Bool.and_eq_true, List.all_eq_true]
  refine ⟨fun x hx => ?_, trivial⟩
  obtain ⟨l, _, rfl⟩ := List.mem_map.1 hx
  rfl

/-- Claim C1 counterexample: a successfully parsed JSON value of the wrong
shape (here `{"totalCost": 5}`, no `ingredients` field) is not redirected to
the Budget Allocator: the unvalidated cast passes `undefined` through as
`ingredients`, so the returned value differs from the Budget Allocator's and
is not a structurally valid `AllocationResult`. -/
theorem advisory_shape_unvalidated :
    generateRecipeBuild 10 30 [⟨"A", 1, none, none⟩]
        (.parsed (.obj [("totalCost", .num 5)]))
      ≠ embedRecipe (simpleOptimize 10 30 [⟨"A", 1, none, none⟩]) ∧
    structurallyValid
      (generateRecipeBuild 10 30 [⟨"A", 1, none, none⟩]
        (.parsed (.obj [("totalCost", .num 5)]))) = false := by
  constructor
  · intro h
    have h2 := congrArg JsRecipe.ingredients h
    rw [show (generateRecipeBuild 10 30 [⟨"A", 1, none, none⟩]
        (.parsed (.obj [("totalCost", .num 5)]))).ingredients = JVal.undefined from rfl] at h2
    exact JVal.noConfusion h2
  · rfl

/-- Claim C1 as amended: no exception reaches the caller (the model function
is total), and whenever the external path throws — unconfigured client,
throwing call, malformed JSON, or a throwing property read on a parsed
`null`/`undefined` — the result is exactly the embedded Budget Allocator
result for the same inputs, which is structurally valid.  A successfully
parsed JSON value of the wrong shape, however, flows through unvalidated
(see the counterexample). -/
theorem advisory_fallback_on_failure (s p : ℚ) (items : List IngredientInput)
    (o : ServiceOutcome) (ho : fallsBack o = true) :
    generateRecipeBuild s p items o = embedRecipe (simpleOptimize s p items) ∧
    structurallyValid (generateRecipeBuild s p items o) = true := by
  have hres : generateRecipeBuild s p items o
      = embedRecipe (simpleOptimize s p items) := by
    cases o with
    | unconfigured => rfl
    | callThrows => rfl
    | parseThrows => rfl
    | parsed v =>
      cases v with
      | null => rfl
      | undefined => rfl
      | bool b => simp [fallsBack] at ho
      | num x => simp [fallsBack] at ho
      | str t => simp [fallsBack] at ho
      | arr xs => simp [fallsBack] at ho
      | obj fs => simp [fallsBack] at ho
  exact ⟨hres, hres ▸ structurallyValid_embedRecipe _⟩

/-- Witness for the amended C1: a malformed-JSON outcome falls back. -/
theorem advisory_fallback_on_failure_witness :
    generateRecipeBuild 10 30 [⟨"A", 1, none, none⟩] .parseThrows
      = embedRecipe (simpleOptimize 10 30 [⟨"A", 1, none, none⟩]) ∧
    structurallyValid
      (generateRecipeBuild 10 30 [⟨"A", 1, none, none⟩] .parseThrows) = true :=
  advisory_fallback_on_failure 10 30 [⟨"A", 1, none, none⟩] .parseThrows rfl

end ProfitRestaurant
